import Mathlib

/-!
Verification of the BGCFlow wrapper annotation extractor and glue logic
(`src/bgcflow/bgcflow.py`).

The development shallowly embeds the pieces of `get_all_rules`,
`get_all_workflows` and `snakemake_wrapper` that the specification talks
about:

* the line-oriented `#%`-delimited documentation-block extractor
  (`extractDoc` / `extractFile`, from the loop in `get_all_rules`
  lines 225-233, identical in `get_all_workflows` lines 298-306);
* a model of the external `yaml.safe_load` call (`yamlSafeLoad`),
  restricted to the subset of YAML the repository's documentation blocks
  exercise: top-level mappings whose values are double-quoted scalars or
  flow lists of double-quoted scalars; every other document is rejected.
  The inputs used in the theorems below stay inside this subset, or are
  inputs (an unclosed flow sequence) on which the real parser also fails;
* the per-file entry construction and the scan over all files
  (`entryOf`, `scanRules`, from lines 215-238);
* the identifier derivation from relative paths (`mk_rule_name`,
  lines 216-223);
* the describe / citation lookups and the printed output of the query
  section, including its `except KeyError` handler (lines 240-269);
* the Panoptes poll loop of `snakemake_wrapper` (lines 63-78).

Files are modelled as Python's line iteration delivers them: a list of
line strings, each still carrying its trailing newline.
-/

namespace BGCFlow

/-- Decidable equality for `Except`, so that concrete runs of the embedded
functions can be checked by `decide`. -/
instance {ε α : Type} [DecidableEq ε] [DecidableEq α] : DecidableEq (Except ε α) :=
  fun x y =>
    match x, y with
    | Except.ok a, Except.ok b =>
      if h : a = b then isTrue (by rw [h]) else isFalse (by intro hh; cases hh; exact h rfl)
    | Except.error a, Except.error b =>
      if h : a = b then isTrue (by rw [h]) else isFalse (by intro hh; cases hh; exact h rfl)
    | Except.ok _, Except.error _ => isFalse (by intro hh; cases hh)
    | Except.error _, Except.ok _ => isFalse (by intro hh; cases hh)

/-- Boolean test that string `s` starts with string `p`; model of Python's
`str.startswith`, computed on the character lists so that the kernel can
evaluate it. -/
def strStarts (s p : String) : Bool := p.data.isPrefixOf s.data

/-- Model of Python's `line[1:]`: the string with its first character
removed. -/
def strTail (s : String) : String := String.mk (s.data.drop 1)

/-- Concatenation of a list of strings, in order. -/
def concatAll : List String → String
  | [] => ""
  | x :: xs => x ++ concatAll xs

/-- Embedding of the extraction loop of `get_all_rules` (lines 225-233):
`parse` is the Python variable `parse`, `doc` the accumulated `doc_s`;
a `#%` line toggles `parse`, otherwise a `#` line is appended with its
first character stripped whenever `parse` is set, and every other line is
ignored. -/
def extractDoc : Bool → String → List String → String
  | _, doc, [] => doc
  | parse, doc, line :: rest =>
    if strStarts line ("#%") then extractDoc (!parse) doc rest
    else if parse && strStarts line ("#") then extractDoc parse (doc ++ strTail line) rest
    else extractDoc parse doc rest

/-- The documentation buffer produced for one file: the loop started with
`parse = False` and `doc_s = ""`. -/
def extractFile (lines : List String) : String := extractDoc false ("") lines

/-- Specification-side description of the same pass: the list of exactly
those stripped lines that the capture rules of the spec (section 4.1,
steps 1-6) emit, in order. -/
def specCaptured : Bool → List String → List String
  | _, [] => []
  | capturing, line :: rest =>
    if strStarts line ("#%") then specCaptured (!capturing) rest
    else if capturing && strStarts line ("#") then
      strTail line :: specCaptured capturing rest
    else specCaptured capturing rest

/-- Values appearing in a parsed documentation block.  The repository's
blocks only use string scalars and lists of strings (`description`,
`references`, `schema`), so the model restricts YAML values to these two
shapes. -/
inductive YVal where
  | str (s : String)
  | strList (l : List String)
deriving DecidableEq

/-- A parsed documentation block: an ordered mapping from field names to
values (the dict returned by `yaml.safe_load`). -/
abbrev Entry := List (String × YVal)

/-- Splits a character list at every occurrence of `c`; the separators are
dropped. -/
def splitOnChar (c : Char) : List Char → List (List Char)
  | [] => [[]]
  | x :: xs =>
    match splitOnChar c xs with
    | [] => [[]]
    | r :: rs => if x = c then [] :: r :: rs else (x :: r) :: rs

/-- Drops leading blanks. -/
def dropSpaces (l : List Char) : List Char := l.dropWhile (fun c => c = ' ')

/-- Drops trailing blanks. -/
def dropEndSpaces (l : List Char) : List Char := (dropSpaces l.reverse).reverse

/-- Scans up to the closing double quote of a quoted scalar, returning the
content and the remainder after the quote. -/
def scanQuoted : List Char → Option (List Char × List Char)
  | [] => none
  | c :: rest =>
    if c = '"' then some ([], rest)
    else
      match scanQuoted rest with
      | some (content, after) => some (c :: content, after)
      | none => none

/-- The error value standing for the exception a failed
`yaml.safe_load` raises. -/
def yamlErr : String := "yaml: parse error"

/-- Parses one element of a flow list: optional blanks around a
double-quoted scalar. -/
def parseItem (item : List Char) : Except String String :=
  match dropSpaces (dropEndSpaces item) with
  | '"' :: rest =>
    match scanQuoted rest with
    | some (content, []) => Except.ok (String.mk content)
    | _ => Except.error yamlErr
  | _ => Except.error yamlErr

/-- Parses every element of a flow list, failing on the first bad one. -/
def parseItems : List (List Char) → Except String (List String)
  | [] => Except.ok []
  | item :: rest =>
    match parseItem item, parseItems rest with
    | Except.ok s, Except.ok ss => Except.ok (s :: ss)
    | Except.error e, _ => Except.error e
    | _, Except.error e => Except.error e

/-- Parses a value: a double-quoted scalar or a flow list of double-quoted
scalars.  Anything else — in particular an unclosed flow sequence, on
which the real YAML parser also raises — is a parse error. -/
def parseValC (v : List Char) : Except String YVal :=
  match v with
  | '"' :: rest =>
    match scanQuoted rest with
    | some (content, []) => Except.ok (YVal.str (String.mk content))
    | _ => Except.error yamlErr
  | '[' :: rest =>
    match rest.reverse with
    | ']' :: revInner =>
      let inner := revInner.reverse
      if dropSpaces inner = [] then Except.ok (YVal.strList [])
      else (parseItems (splitOnChar ',' inner)).map YVal.strList
    | _ => Except.error yamlErr
  | _ => Except.error yamlErr

/-- Splits a mapping line at the first `: ` into key and value. -/
def splitKV : List Char → Option (List Char × List Char)
  | [] => none
  | ':' :: ' ' :: rest => some ([], rest)
  | c :: rest =>
    match splitKV rest with
    | some (k, v) => some (c :: k, v)
    | none => none

/-- Parses one `key: value` line of a block. -/
def parseLineC (l : List Char) : Except String (String × YVal) :=
  match splitKV l with
  | some (k, v) => (parseValC v).map (fun yv => (String.mk k, yv))
  | none => Except.error yamlErr

/-- Parses all lines of a block, failing on the first bad one. -/
def parseLinesC : List (List Char) → Except String Entry
  | [] => Except.ok []
  | l :: ls =>
    match parseLineC l, parseLinesC ls with
    | Except.ok kv, Except.ok kvs => Except.ok (kv :: kvs)
    | Except.error e, _ => Except.error e
    | _, Except.error e => Except.error e

/-- Model of the external `yaml.safe_load` on the subset of YAML the
documentation blocks use: the non-empty lines must each be
`key: value` with a quoted-scalar or flow-list value. -/
def yamlSafeLoad (s : String) : Except String Entry :=
  parseLinesC ((splitOnChar '\n' s.data).filter (fun l => !l.isEmpty))

/-- Entry built for one file (lines 225-238): extract the buffer; parse it
when non-empty (`if doc_s:`), otherwise the entry is the empty dict.  The
`Except` layer records that a parse exception propagates. -/
def entryOf (lines : List String) : Except String Entry :=
  if extractFile lines = "" then Except.ok [] else yamlSafeLoad (extractFile lines)

/-- The scan loop of `get_all_rules` (lines 215-238): files are processed
in order, each appending its `(identifier, entry)` pair to the accumulated
`data`; an uncaught parse exception aborts the whole loop. -/
def scanRulesAux (acc : List (String × Entry)) :
    List (String × List String) → Except String (List (String × Entry))
  | [] => Except.ok acc
  | (n, c) :: rest =>
    match entryOf c with
    | Except.error e => Except.error e
    | Except.ok ent => scanRulesAux (acc ++ [(n, ent)]) rest

/-- Scan of a list of `(identifier, file lines)` pairs, starting from the
empty dict `data = {}`. -/
def scanRules (files : List (String × List String)) :
    Except String (List (String × Entry)) :=
  scanRulesAux [] files

/-- Lookup of an identifier in the scanned mapping (`data[rule_name]`);
`none` models the `KeyError` on a missing key. -/
def lookupEntry : List (String × Entry) → String → Option Entry
  | [], _ => none
  | (k, v) :: rest, id => if k = id then some v else lookupEntry rest id

/-- Lookup of a field in one entry (`rule_data[field]`); `none` models the
`KeyError` on a missing field. -/
def lookupField : Entry → String → Option YVal
  | [], _ => none
  | (k, v) :: rest, f => if k = f then some v else lookupField rest f

/-- The double lookup `data[rule_name][field]` performed by the describe
and citation branches. -/
def lookup2 (data : List (String × Entry)) (id f : String) : Option YVal :=
  match lookupEntry data id with
  | none => none
  | some ent => lookupField ent f

/-- Joins strings with a separator. -/
def joinSep (sep : String) : List String → String
  | [] => ""
  | [x] => x
  | x :: y :: rest => x ++ sep ++ joinSep sep (y :: rest)

/-- Python's `str` of a list of strings, as interpolated into the error
message: `[` then the quoted elements joined by `, ` then `]`. -/
def pyListRepr (l : List String) : String :=
  "[" ++ joinSep (", ") (l.map (fun s => "\x27" ++ s ++ "\x27")) ++ "]"

/-- The single combined error line printed by the `except KeyError`
handler of `get_all_rules` (lines 263-269). -/
def cannotFindRuleMsg (names : List String) : String :=
  "ERROR: Cannot find rule " ++ pyListRepr names ++
    " in dictionary. Find available rules with `bgcflow rules`."

/-- The describe operation: `data[rule_name]["description"]`, where either
missing key raises the `KeyError` that the handler turns into the one
combined cannot-find message. -/
def describeRule (data : List (String × Entry)) (id : String) : Except String YVal :=
  match lookup2 data id ("description") with
  | some v => Except.ok v
  | none => Except.error (cannotFindRuleMsg [id])

/-- The citation operation: `data[rule_name]["references"]`, failing the
same way as `describeRule`. -/
def citeRule (data : List (String × Entry)) (id : String) : Except String YVal :=
  match lookup2 data id ("references") with
  | some v => Except.ok v
  | none => Except.error (cannotFindRuleMsg [id])

/-- Model of `bold_terminal_text` (line 196). -/
def boldText (t : String) : String := "\x1b[1m" ++ t ++ "\x1b[0m"

/-- Python's `str` of a parsed value, as interpolated into output lines. -/
def pyStr : YVal → String
  | YVal.str s => s
  | YVal.strList l =>
    "[" ++ joinSep (", ") (l.map (fun s => "\x27" ++ s ++ "\x27")) ++ "]"

/-- The lines printed by `[print("-", c) for c in ...]` (line 249): one
line per element of a list value, and — as in Python — one line per
character when the value is a plain string being iterated. -/
def refLines : YVal → List String
  | YVal.str s => s.data.map (fun c => "- " ++ String.mk [c])
  | YVal.strList l => l.map (fun c => "- " ++ c)

/-- Output of the describe branch (lines 241-244): the header is printed
first, then the double lookup runs; the flag records whether a `KeyError`
was raised after the header went out. -/
def tryDescribeOut (data : List (String × Entry)) : Option String → List String × Bool
  | none => ([], false)
  | some id =>
    match lookup2 data id ("description") with
    | some v => (["Description for " ++ id ++ ":", " - " ++ pyStr v], false)
    | none => (["Description for " ++ id ++ ":"], true)

/-- Output of the citation branch (lines 246-249), same shape as
`tryDescribeOut`. -/
def tryCiteOut (data : List (String × Entry)) : Option String → List String × Bool
  | none => ([], false)
  | some id =>
    match lookup2 data id ("references") with
    | some v => (("Citations for " ++ id ++ ":") :: refLines v, false)
    | none => (["Citations for " ++ id ++ ":"], true)

/-- Output of the listing branch (lines 251-261). -/
def listingOut (data : List (String × Entry)) : List String :=
  ("Printing available rules:") ::
    (data.map (fun p =>
      match lookupField p.2 ("description") with
      | none => [" - " ++ boldText p.1]
      | some d => [" - " ++ boldText p.1, "     " ++ pyStr d])).flatten

/-- The full printed output of the query section of `get_all_rules`
(lines 240-269): the describe branch, then the citation branch, then the
listing branch when neither option was given; a `KeyError` anywhere jumps
to the handler, which appends the single combined error line after
whatever was already printed. -/
def getAllRulesOut (data : List (String × Entry)) (dsc cit : Option String) :
    List String :=
  match tryDescribeOut data dsc with
  | (o1, true) => o1 ++ [cannotFindRuleMsg ([dsc, cit].filterMap id)]
  | (o1, false) =>
    match tryCiteOut data cit with
    | (o2, true) => o1 ++ o2 ++ [cannotFindRuleMsg ([dsc, cit].filterMap id)]
    | (o2, false) =>
      o1 ++ o2 ++ (if dsc.isNone && cit.isNone then listingOut data else [])

/-- Identifier derivation of `get_all_rules` (lines 216-223): `rule_dir`
is `str(rel_rule_file.parents[0])` — `"."` when the file sits directly in
the scanned root — and `name` is the stem of the file. -/
def mk_rule_name (rule_dir name : String) : String :=
  if rule_dir = "." then name else rule_dir ++ "/" ++ name

/-- One poll attempt's outcome as seen by the loop of `snakemake_wrapper`
(lines 63-78): a response carrying a status string, or a
`RequestException`. -/
inductive PollResp where
  | ok (status : String)
  | exn
deriving DecidableEq

/-- Observable result of the poll loop: attempts made, the sleep durations
performed in order, and whether the loop broke out on a running status. -/
structure PollResult where
  attempts : Nat
  sleeps : List Nat
  connected : Bool
deriving DecidableEq

/-- The poll loop from attempt index `i` with `fuel` iterations left: a
running status breaks immediately with no sleep; any other response —
another status (the `else` clause of the `try`) or an exception (the
`except` clause) — sleeps one second and retries. -/
def pollFrom (oracle : Nat → PollResp) : Nat → Nat → PollResult
  | _, 0 => ⟨0, [], false⟩
  | i, fuel + 1 =>
    match oracle i with
    | PollResp.ok s =>
      if s = "running" then ⟨1, [], true⟩
      else
        let r := pollFrom oracle (i + 1) fuel
        ⟨r.attempts + 1, 1 :: r.sleeps, r.connected⟩
    | PollResp.exn =>
      let r := pollFrom oracle (i + 1) fuel
      ⟨r.attempts + 1, 1 :: r.sleeps, r.connected⟩

/-- The loop `for tries in range(10)`: ten iterations starting at the
first attempt. -/
def pollPanoptes (oracle : Nat → PollResp) : PollResult := pollFrom oracle 0 10

/-- The extraction loop with any starting state equals the starting buffer
followed by the concatenation of the captured stripped lines. -/
theorem extractDoc_eq (ls : List String) : ∀ (p : Bool) (doc : String),
    extractDoc p doc ls = doc ++ concatAll (specCaptured p ls) := by
  induction ls with
  | nil => intro p doc; simp [extractDoc, specCaptured, concatAll]
  | cons l rest ih =>
    intro p doc
    by_cases h1 : strStarts l ("#%") = true
    · simp [extractDoc, specCaptured, h1, ih]
    · by_cases h2 : (p && strStarts l ("#")) = true
      · simp [extractDoc, specCaptured, h1, h2, ih, concatAll, String.append_assoc]
      · simp [extractDoc, specCaptured, h1, h2, ih]

/-- While not capturing, a marker-free run of lines leaves the state
untouched. -/
theorem extractDoc_skip (pre : List String) :
    ∀ (rest : List String) (doc : String),
      (∀ l ∈ pre, strStarts l ("#%") = false) →
      extractDoc false doc (pre ++ rest) = extractDoc false doc rest := by
  induction pre with
  | nil => intro rest doc _; rfl
  | cons l pre2 ih =>
    intro rest doc h
    have h1 := h l (List.mem_cons_self _ _)
    simp only [List.cons_append, extractDoc, h1]
    simpa using ih rest doc (fun x hx => h x (List.mem_cons_of_mem _ hx))

/-- While capturing with no further marker in sight, every `#` line is
consumed, stripped, up to end of file. -/
theorem extractDoc_capture (post : List String) :
    ∀ (doc : String),
      (∀ l ∈ post, strStarts l ("#%") = false) →
      extractDoc true doc post =
        doc ++ concatAll ((post.filter (fun l => strStarts l ("#"))).map strTail) := by
  induction post with
  | nil => intro doc _; simp [extractDoc, concatAll]
  | cons l post2 ih =>
    intro doc h
    have h1 := h l (List.mem_cons_self _ _)
    have h3 : ∀ x ∈ post2, strStarts x ("#%") = false :=
      fun x hx => h x (List.mem_cons_of_mem _ hx)
    by_cases h2 : strStarts l ("#") = true
    · simp [extractDoc, h1, h2, ih _ h3, concatAll, String.append_assoc]
    · simp [extractDoc, h1, h2, ih _ h3, concatAll]

/-- With no marker anywhere and capture off, nothing is ever captured. -/
theorem specCaptured_of_no_marker (ls : List String)
    (h : ∀ l ∈ ls, strStarts l ("#%") = false) : specCaptured false ls = [] := by
  induction ls with
  | nil => rfl
  | cons l rest ih =>
    have h1 := h l (List.mem_cons_self _ _)
    simp [specCaptured, h1, ih (fun x hx => h x (List.mem_cons_of_mem _ hx))]

/-- Claim C1: for every input file, read line by line with the capturing
flag starting false, a `#%` line toggles the flag and is never appended;
otherwise a `#` line is appended with its first character stripped when
the flag is true; every other line is ignored — and the resulting buffer
equals the concatenation (newlines preserved, since each line keeps its
trailing newline) of exactly those stripped lines. -/
theorem extract_buffer_eq_captured_concat (lines : List String) :
    extractFile lines = concatAll (specCaptured false lines) := by
  have h := extractDoc_eq lines false ("")
  simpa [extractFile] using h

/-- Claim C6: a file with zero marker lines yields an empty buffer and the
empty entry, in which every field — description, references, schema — is
absent. -/
theorem no_marker_entry_empty (lines : List String)
    (h : ∀ l ∈ lines, strStarts l ("#%") = false) :
    extractFile lines = "" ∧ entryOf lines = Except.ok [] ∧
      lookupField [] ("description") = none ∧
      lookupField [] ("references") = none ∧
      lookupField [] ("schema") = none := by
  have he : extractFile lines = "" := by
    have h2 := extractDoc_eq lines false ("")
    rw [specCaptured_of_no_marker lines h] at h2
    simpa [extractFile, concatAll] using h2
  exact ⟨he, by simp [entryOf, he], rfl, rfl, rfl⟩

/-- A markerless file used to evaluate the zero-marker claim. -/
def plainFile : List String := ["# just a comment\n", "rule x:\n", "  shell: echo\n"]

/-- Witness for claim C6 at a concrete markerless file. -/
theorem no_marker_entry_empty_witness :
    (∀ l ∈ plainFile, strStarts l ("#%") = false) ∧
      (extractFile plainFile = "" ∧ entryOf plainFile = Except.ok [] ∧
        lookupField [] ("description") = none ∧
        lookupField [] ("references") = none ∧
        lookupField [] ("schema") = none) :=
  ⟨by decide, no_marker_entry_empty plainFile (by decide)⟩

/-- Claim C5: in a file with exactly one marker line, that marker opens
capture (capture starts false) and every later `#` line is consumed,
stripped, up to end of file; the buffer accumulated at EOF is parsed and
used exactly like a closed block, with no error for the unclosed block. -/
theorem single_marker_captures_to_eof (pre post : List String) (m : String)
    (hm : strStarts m ("#%") = true)
    (hpre : ∀ l ∈ pre, strStarts l ("#%") = false)
    (hpost : ∀ l ∈ post, strStarts l ("#%") = false) :
    extractFile (pre ++ m :: post) =
      concatAll ((post.filter (fun l => strStarts l ("#"))).map strTail) ∧
    entryOf (pre ++ m :: post) =
      (if concatAll ((post.filter (fun l => strStarts l ("#"))).map strTail) = ""
        then Except.ok []
        else yamlSafeLoad
          (concatAll ((post.filter (fun l => strStarts l ("#"))).map strTail))) := by
  have h1 : extractFile (pre ++ m :: post) =
      concatAll ((post.filter (fun l => strStarts l ("#"))).map strTail) := by
    rw [extractFile, extractDoc_skip pre (m :: post) ("") hpre]
    simp only [extractDoc, hm, if_pos]
    have h2 := extractDoc_capture post ("") hpost
    simpa using h2
  exact ⟨h1, by simp only [entryOf, h1]⟩

/-- A one-marker file used to evaluate the unclosed-block claim. -/
def unclosedFile : List String :=
  ["rule a:\n", "#%\n", "#description: \"x\"\n", "not a comment\n", "#references: []\n"]

/-- Witness for claim C5 at a concrete file whose single marker is
followed by comment lines running to EOF. -/
theorem single_marker_captures_to_eof_witness :
    (strStarts ("#%\n") ("#%") = true ∧
      (∀ l ∈ (["rule a:\n"] : List String), strStarts l ("#%") = false) ∧
      (∀ l ∈ (["#description: \"x\"\n", "not a comment\n", "#references: []\n"] : List String),
        strStarts l ("#%") = false)) ∧
    (extractFile unclosedFile =
      concatAll (((["#description: \"x\"\n", "not a comment\n", "#references: []\n"] :
          List String).filter (fun l => strStarts l ("#"))).map strTail) ∧
    entryOf unclosedFile =
      (if concatAll (((["#description: \"x\"\n", "not a comment\n", "#references: []\n"] :
            List String).filter (fun l => strStarts l ("#"))).map strTail) = ""
        then Except.ok []
        else yamlSafeLoad
          (concatAll (((["#description: \"x\"\n", "not a comment\n", "#references: []\n"] :
              List String).filter (fun l => strStarts l ("#"))).map strTail)))) :=
  ⟨⟨by decide, by decide, by decide⟩,
    single_marker_captures_to_eof ["rule a:\n"]
      ["#description: \"x\"\n", "not a comment\n", "#references: []\n"] ("#%\n")
      (by decide) (by decide) (by decide)⟩

/-- Claim C7: a file whose documentation block reads
`description: "x"` and `references: ["a","b"]` parses to an entry whose
description field is the string `x` and whose references field is the
list of the strings `a` and `b`. -/
theorem block_roundtrip (lines : List String)
    (h : extractFile lines = "description: \"x\"\nreferences: [\"a\",\"b\"]\n") :
    entryOf lines = Except.ok
      [(("description"), YVal.str ("x")), (("references"), YVal.strList [("a"), ("b")])] := by
  simp only [entryOf]
  rw [h]
  decide

/-- A rule file carrying the round-trip documentation block. -/
def roundtripFile : List String :=
  ["#%\n", "#description: \"x\"\n", "#references: [\"a\",\"b\"]\n", "#%\n", "rule a:\n"]

/-- Witness for claim C7 at a concrete file carrying the block. -/
theorem block_roundtrip_witness :
    extractFile roundtripFile = "description: \"x\"\nreferences: [\"a\",\"b\"]\n" ∧
    entryOf roundtripFile = Except.ok
      [(("description"), YVal.str ("x")), (("references"), YVal.strList [("a"), ("b")])] :=
  ⟨by decide, block_roundtrip roundtripFile (by decide)⟩

/-- A file whose documentation block is an unclosed flow sequence — a
block the real YAML parser also rejects. -/
def badDocFile : List String := ["#%\n", "#references: [\"a\"\n", "#%\n"]

/-- A file with a well-formed documentation block. -/
def goodDocFile : List String := ["#%\n", "#description: \"ok\"\n", "#%\n"]

/-- Counterexample to claim C2: the parse error raised on the first file
aborts the whole scan — `scanRules` returns the error and produces no
mapping at all, so the entry of the second, well-formed file is not
produced, contrary to the claim that the scan continues past the
offending file. -/
theorem parse_error_aborts_whole_scan_cex :
    entryOf badDocFile = Except.error yamlErr ∧
    entryOf goodDocFile = Except.ok [(("description"), YVal.str ("ok"))] ∧
    scanRules [(("bad"), badDocFile), (("good"), goodDocFile)] = Except.error yamlErr := by
  refine ⟨by decide, by decide, by decide⟩

/-- Claim C2 as amended: a documentation block that fails to parse raises
an error that propagates out of the scan loop uncaught — the whole scan
aborts with that error and no entries are produced for any file,
including the files after the offending one. -/
theorem parse_error_aborts_whole_scan (n : String) (c : List String)
    (rest : List (String × List String)) (e : String)
    (h : entryOf c = Except.error e) :
    scanRules ((n, c) :: rest) = Except.error e := by
  simp [scanRules, scanRulesAux, h]

/-- Witness for the amended claim C2 at the concrete malformed file. -/
theorem parse_error_aborts_whole_scan_witness :
    entryOf badDocFile = Except.error yamlErr ∧
    scanRules [(("bad"), badDocFile)] = Except.error yamlErr :=
  ⟨by decide, parse_error_aborts_whole_scan ("bad") badDocFile [] yamlErr (by decide)⟩

/-- Claim C3: the describe operation fails exactly when the identifier is
absent from the scanned mapping or the entry has no description field;
the citation operation fails exactly when the identifier is absent or the
references field is missing; and in every failure case both operations
surface the same single combined cannot-find message, which depends only
on the identifier — so it cannot distinguish an unknown identifier from
an absent field. -/
theorem describe_cite_notfound (data : List (String × Entry)) (id : String) :
    ((∃ e, describeRule data id = Except.error e) ↔
      (lookupEntry data id = none ∨
        ∃ ent, lookupEntry data id = some ent ∧ lookupField ent ("description") = none)) ∧
    ((∃ e, citeRule data id = Except.error e) ↔
      (lookupEntry data id = none ∨
        ∃ ent, lookupEntry data id = some ent ∧ lookupField ent ("references") = none)) ∧
    (∀ e, describeRule data id = Except.error e → e = cannotFindRuleMsg [id]) ∧
    (∀ e, citeRule data id = Except.error e → e = cannotFindRuleMsg [id]) := by
  refine ⟨?_, ?_, ?_, ?_⟩
  · cases he : lookupEntry data id with
    | none => simp [describeRule, lookup2, he]
    | some ent =>
      cases hf : lookupField ent ("description") with
      | none => simp [describeRule, lookup2, he, hf]
      | some v => simp [describeRule, lookup2, he, hf]
  · cases he : lookupEntry data id with
    | none => simp [citeRule, lookup2, he]
    | some ent =>
      cases hf : lookupField ent ("references") with
      | none => simp [citeRule, lookup2, he, hf]
      | some v => simp [citeRule, lookup2, he, hf]
  · intro e h
    cases he : lookupEntry data id with
    | none =>
      simp [describeRule, lookup2, he] at h
      exact h.symm
    | some ent =>
      cases hf : lookupField ent ("description") with
      | none =>
        simp [describeRule, lookup2, he, hf] at h
        exact h.symm
      | some v => simp [describeRule, lookup2, he, hf] at h
  · intro e h
    cases he : lookupEntry data id with
    | none =>
      simp [citeRule, lookup2, he] at h
      exact h.symm
    | some ent =>
      cases hf : lookupField ent ("references") with
      | none =>
        simp [citeRule, lookup2, he, hf] at h
        exact h.symm
      | some v => simp [citeRule, lookup2, he, hf] at h

/-- Witness for claim C3: on the empty mapping the describe operation
fails with exactly the combined cannot-find message. -/
theorem describe_cite_notfound_witness :
    describeRule [] ("x") = Except.error (cannotFindRuleMsg [("x")]) ∧
    cannotFindRuleMsg [("x")] = cannotFindRuleMsg [("x")] :=
  ⟨by decide, (describe_cite_notfound [] ("x")).2.2.1 (cannotFindRuleMsg [("x")]) (by decide)⟩

/-- Claim C4: a file directly in the scanned root gets its bare stem as
identifier, a file under a subdirectory gets the subdirectory path and a
slash prepended, and the derivation is injective per scan — a common stem
under two different subdirectory paths always yields two different
identifiers. -/
theorem rule_name_injective (d1 d2 s : String) (h : d1 ≠ d2) :
    mk_rule_name (".") s = s ∧
    (d1 ≠ "." → mk_rule_name d1 s = d1 ++ "/" ++ s) ∧
    mk_rule_name d1 s ≠ mk_rule_name d2 s := by
  refine ⟨by simp [mk_rule_name], fun hd => by simp [mk_rule_name, hd], ?_⟩
  by_cases h1 : d1 = "."
  · by_cases h2 : d2 = "."
    · exact absurd (h1.trans h2.symm) h
    · simp only [mk_rule_name, if_pos h1, if_neg h2]
      intro hc
      have h3 := congrArg String.length hc
      simp [String.length_append] at h3
      exact absurd h3.2 (by decide)
  · by_cases h2 : d2 = "."
    · simp only [mk_rule_name, if_neg h1, if_pos h2]
      intro hc
      have h3 := congrArg String.length hc.symm
      simp [String.length_append] at h3
      exact absurd h3.2 (by decide)
    · simp only [mk_rule_name, if_neg h1, if_neg h2]
      intro hc
      have h3 := congrArg String.data hc
      simp [String.data_append] at h3
      exact h (String.ext h3)

/-- Witness for claim C4 at two concrete subdirectories sharing a stem. -/
theorem rule_name_injective_witness :
    (("a") : String) ≠ ("b") ∧
    (mk_rule_name (".") ("foo") = "foo" ∧
      ((("a") : String) ≠ "." → mk_rule_name ("a") ("foo") = ("a") ++ "/" ++ ("foo")) ∧
      mk_rule_name ("a") ("foo") ≠ mk_rule_name ("b") ("foo")) :=
  ⟨by decide, rule_name_injective ("a") ("b") ("foo") (by decide)⟩

/-- The poll loop never makes more attempts than it has iterations. -/
theorem pollFrom_attempts_le (oracle : Nat → PollResp) :
    ∀ (fuel i : Nat), (pollFrom oracle i fuel).attempts ≤ fuel := by
  intro fuel
  induction fuel with
  | zero => intro i; simp [pollFrom]
  | succ f ih =>
    intro i
    simp only [pollFrom]
    cases ho : oracle i with
    | ok s =>
      by_cases hs : s = "running"
      · simp [hs]
      · simp only [if_neg hs]
        have h1 := ih (i + 1)
        show (pollFrom oracle (i + 1) f).attempts + 1 ≤ f + 1
        omega
    | exn =>
      have h1 := ih (i + 1)
      show (pollFrom oracle (i + 1) f).attempts + 1 ≤ f + 1
      omega

/-- Every sleep the poll loop performs lasts exactly one second. -/
theorem pollFrom_sleeps_one (oracle : Nat → PollResp) :
    ∀ (fuel i : Nat), ∀ t ∈ (pollFrom oracle i fuel).sleeps, t = 1 := by
  intro fuel
  induction fuel with
  | zero => intro i t ht; simp [pollFrom] at ht
  | succ f ih =>
    intro i t ht
    simp only [pollFrom] at ht
    cases ho : oracle i with
    | ok s =>
      rw [ho] at ht
      by_cases hs : s = "running"
      · simp [hs] at ht
      · simp only [if_neg hs] at ht
        rcases List.mem_cons.mp ht with h1 | h1
        · exact h1
        · exact ih (i + 1) t h1
    | exn =>
      rw [ho] at ht
      rcases List.mem_cons.mp ht with h1 | h1
      · exact h1
      · exact ih (i + 1) t h1

/-- One sleep follows every unsuccessful attempt and none follows the
successful one, so the attempt count and the sleep count are locked
together. -/
theorem pollFrom_sleep_count (oracle : Nat → PollResp) :
    ∀ (fuel i : Nat),
      ((pollFrom oracle i fuel).connected = true →
        (pollFrom oracle i fuel).attempts = (pollFrom oracle i fuel).sleeps.length + 1) ∧
      ((pollFrom oracle i fuel).connected = false →
        (pollFrom oracle i fuel).attempts = (pollFrom oracle i fuel).sleeps.length) := by
  intro fuel
  induction fuel with
  | zero => intro i; simp [pollFrom]
  | succ f ih =>
    intro i
    simp only [pollFrom]
    cases ho : oracle i with
    | ok s =>
      by_cases hs : s = "running"
      · simp [hs]
      · simp only [if_neg hs]
        constructor
        · intro hc
          have hc2 : (pollFrom oracle (i + 1) f).connected = true := hc
          show (pollFrom oracle (i + 1) f).attempts + 1 =
            (1 :: (pollFrom oracle (i + 1) f).sleeps).length + 1
          rw [(ih (i + 1)).1 hc2]
          simp
        · intro hc
          have hc2 : (pollFrom oracle (i + 1) f).connected = false := hc
          show (pollFrom oracle (i + 1) f).attempts + 1 =
            (1 :: (pollFrom oracle (i + 1) f).sleeps).length
          rw [(ih (i + 1)).2 hc2]
          simp
    | exn =>
      constructor
      · intro hc
        have hc2 : (pollFrom oracle (i + 1) f).connected = true := hc
        show (pollFrom oracle (i + 1) f).attempts + 1 =
          (1 :: (pollFrom oracle (i + 1) f).sleeps).length + 1
        rw [(ih (i + 1)).1 hc2]
        simp
      · intro hc
        have hc2 : (pollFrom oracle (i + 1) f).connected = false := hc
        show (pollFrom oracle (i + 1) f).attempts + 1 =
          (1 :: (pollFrom oracle (i + 1) f).sleeps).length
        rw [(ih (i + 1)).2 hc2]
        simp

/-- The poll loop breaks out at the first running status: `j` failures
followed by a running response give `j + 1` attempts, `j` one-second
sleeps, and a connection. -/
theorem pollFrom_early (oracle : Nat → PollResp) :
    ∀ (j fuel i : Nat), j < fuel →
      oracle (i + j) = PollResp.ok ("running") →
      (∀ k, k < j → oracle (i + k) ≠ PollResp.ok ("running")) →
      pollFrom oracle i fuel = ⟨j + 1, List.replicate j 1, true⟩ := by
  intro j
  induction j with
  | zero =>
    intro fuel i hf h0 _
    cases fuel with
    | zero => omega
    | succ f =>
      rw [Nat.add_zero] at h0
      simp [pollFrom, h0]
  | succ j ih =>
    intro fuel i hf hj hpre
    cases fuel with
    | zero => omega
    | succ f =>
      have h0 : oracle i ≠ PollResp.ok ("running") := by
        have := hpre 0 (by omega)
        simpa using this
      have hj2 : oracle (i + 1 + j) = PollResp.ok ("running") := by
        rw [show i + 1 + j = i + (j + 1) from by omega]
        exact hj
      have hpre2 : ∀ k, k < j → oracle (i + 1 + k) ≠ PollResp.ok ("running") := by
        intro k hk
        have := hpre (k + 1) (by omega)
        rw [show i + (k + 1) = i + 1 + k from by omega] at this
        exact this
      have hrec := ih f (i + 1) (by omega) hj2 hpre2
      simp only [pollFrom]
      cases ho : oracle i with
      | ok s =>
        have hs : ¬ s = "running" := by
          intro hh
          exact h0 (by rw [ho, hh])
        simp [if_neg hs, hrec, List.replicate]
      | exn => simp [hrec, List.replicate]

/-- When no attempt sees a running status, the loop runs all its
iterations, sleeps one second after each, and ends unconnected. -/
theorem pollFrom_exhaust (oracle : Nat → PollResp) :
    ∀ (fuel i : Nat),
      (∀ k, k < fuel → oracle (i + k) ≠ PollResp.ok ("running")) →
      pollFrom oracle i fuel = ⟨fuel, List.replicate fuel 1, false⟩ := by
  intro fuel
  induction fuel with
  | zero => intro i _; simp [pollFrom]
  | succ f ih =>
    intro i h
    have h0 : oracle i ≠ PollResp.ok ("running") := by
      have := h 0 (by omega)
      simpa using this
    have h2 : ∀ k, k < f → oracle (i + 1 + k) ≠ PollResp.ok ("running") := by
      intro k hk
      have := h (k + 1) (by omega)
      rw [show i + (k + 1) = i + 1 + k from by omega] at this
      exact this
    have hrec := ih (i + 1) h2
    simp only [pollFrom]
    cases ho : oracle i with
    | ok s =>
      have hs : ¬ s = "running" := by
        intro hh
        exact h0 (by rw [ho, hh])
      simp [if_neg hs, hrec, List.replicate]
    | exn => simp [hrec, List.replicate]

/-- Claim C8: the monitoring poll loop makes at most ten attempts; every
sleep lasts exactly one second (no exponential backoff) and follows an
unsuccessful attempt, none the successful one; the loop stops early at
the first running status; and when all ten attempts fail it simply ends
unconnected after ten attempts — `pollPanoptes` returns that plain
result, with no error raised and no failure mark of the run. -/
theorem poll_loop_bounded_retry (oracle : Nat → PollResp) :
    (pollPanoptes oracle).attempts ≤ 10 ∧
    (∀ t ∈ (pollPanoptes oracle).sleeps, t = 1) ∧
    ((pollPanoptes oracle).connected = true →
      (pollPanoptes oracle).attempts = (pollPanoptes oracle).sleeps.length + 1) ∧
    ((pollPanoptes oracle).connected = false →
      (pollPanoptes oracle).attempts = (pollPanoptes oracle).sleeps.length) ∧
    (∀ j, j < 10 → oracle j = PollResp.ok ("running") →
      (∀ k, k < j → oracle k ≠ PollResp.ok ("running")) →
      pollPanoptes oracle = ⟨j + 1, List.replicate j 1, true⟩) ∧
    ((∀ k, k < 10 → oracle k ≠ PollResp.ok ("running")) →
      pollPanoptes oracle = ⟨10, List.replicate 10 1, false⟩) := by
  refine ⟨pollFrom_attempts_le oracle 10 0, pollFrom_sleeps_one oracle 10 0,
    (pollFrom_sleep_count oracle 10 0).1, (pollFrom_sleep_count oracle 10 0).2, ?_, ?_⟩
  · intro j hj hrun hpre
    refine pollFrom_early oracle j 10 0 hj ?_ ?_
    · simpa using hrun
    · intro k hk
      simpa using hpre k hk
  · intro h
    refine pollFrom_exhaust oracle 10 0 ?_
    intro k hk
    simpa using h k hk

/-- An oracle that fails twice and then reports running. -/
def pollOracleW (i : Nat) : PollResp :=
  if i < 2 then PollResp.exn else PollResp.ok ("running")

/-- Witness for claim C8: two failures then a running status give three
attempts, two one-second sleeps, and an early stop. -/
theorem poll_loop_bounded_retry_witness :
    (pollPanoptes pollOracleW).attempts ≤ 10 ∧
    pollPanoptes pollOracleW = ⟨2 + 1, List.replicate 2 1, true⟩ :=
  ⟨(poll_loop_bounded_retry pollOracleW).1,
    (poll_loop_bounded_retry pollOracleW).2.2.2.2.1 2 (by decide) (by decide) (by decide)⟩

/-- The scan loop with any accumulated mapping equals the independent
per-file entry computation prefixed by the accumulator. -/
theorem scanRulesAux_eq (files : List (String × List String)) :
    ∀ acc, scanRulesAux acc files =
      Except.map (fun l => acc ++ l)
        (files.mapM (fun fc => Except.map (fun e => (fc.1, e)) (entryOf fc.2))) := by
  induction files with
  | nil =>
    intro acc
    simp [scanRulesAux, List.mapM, List.mapM.loop, Except.map, pure, Except.pure]
  | cons fc rest ih =>
    intro acc
    obtain ⟨n, c⟩ := fc
    rw [List.mapM_cons]
    cases he : entryOf c with
    | error e =>
      simp [scanRulesAux, he, Except.map, Except.bind, bind]
    | ok ent =>
      simp only [scanRulesAux, he, ih (acc ++ [(n, ent)])]
      cases hr : rest.mapM (fun fc => Except.map (fun e => (fc.1, e)) (entryOf fc.2)) with
      | error e => simp [Except.map, Except.bind, bind, hr]
      | ok l => simp [Except.map, Except.bind, bind, hr, pure, Except.pure]

/-- Claim C9: extraction is per-file independent — the capturing flag and
buffer restart for every file, so the scan equals the per-file map: each
file's `(identifier, entry)` pair is a deterministic function of that
file's contents alone, identical inputs in identical order give identical
mappings, and no file's (possibly unclosed) block affects any other
file's entry. -/
theorem scan_is_per_file_map (files : List (String × List String)) :
    scanRules files =
      files.mapM (fun fc => Except.map (fun e => (fc.1, e)) (entryOf fc.2)) := by
  rw [scanRules, scanRulesAux_eq files []]
  cases hm : files.mapM (fun fc => Except.map (fun e => (fc.1, e)) (entryOf fc.2)) with
  | error e => simp [Except.map]
  | ok l => simp [Except.map]

/-- Claim C10: the describe and citation branches are not atomic in
their output — the header naming the requested identifier is printed
before the lookup runs, so a failing lookup leaves the header already
emitted, followed by the single combined error line. -/
theorem header_printed_before_error (data : List (String × Entry)) (id : String) :
    (lookup2 data id ("description") = none →
      getAllRulesOut data (some id) none =
        ["Description for " ++ id ++ ":", cannotFindRuleMsg [id]]) ∧
    (lookup2 data id ("references") = none →
      getAllRulesOut data none (some id) =
        ["Citations for " ++ id ++ ":", cannotFindRuleMsg [id]]) := by
  constructor
  · intro h
    simp [getAllRulesOut, tryDescribeOut, h, List.filterMap]
  · intro h
    simp [getAllRulesOut, tryDescribeOut, tryCiteOut, h, List.filterMap]

/-- Witness for claim C10: on the empty mapping the describe header is
emitted and the combined error line follows it. -/
theorem header_printed_before_error_witness :
    lookup2 [] ("x") ("description") = none ∧
    getAllRulesOut [] (some ("x")) none =
      ["Description for " ++ ("x") ++ ":", cannotFindRuleMsg [("x")]] :=
  ⟨by decide, (header_printed_before_error [] ("x")).1 (by decide)⟩

end BGCFlow
